import Mathlib

/-!
Verification of the data aggregation and metrics module of the Chennai
Electricity Analytics program (`chennai_electricity_analytics_main.py`,
`chennai_electricity_standalone.py`).

The program operates on pandas DataFrames whose numeric cells are numpy
float64 values.  We embed the cell values as `PFloat`: an exact rational
together with the special values `+inf`, `-inf` and `NaN`, with the
numpy/IEEE propagation rules for the arithmetic the program performs
(signed zeros are not distinguished; no rounding is modelled, the claims
under verification do not depend on rounding).  `NaN` is the pandas null
(`isna`); the infinities are not null.
-/

/-- A pandas/numpy float64 cell value: an exact finite rational, `+inf`,
`-inf`, or `NaN`. -/
inductive PFloat where
  | fin (q : ℚ)
  | pinf
  | ninf
  | nan
deriving DecidableEq

/-- pandas `isna`: only `NaN` counts as null (infinities are non-null). -/
def PFloat.isNull : PFloat → Bool
  | .nan => true
  | _ => false

/-- numpy subtraction on float64 values. -/
def psub : PFloat → PFloat → PFloat
  | .nan, _ => .nan
  | _, .nan => .nan
  | .fin a, .fin b => .fin (a - b)
  | .pinf, .fin _ => .pinf
  | .pinf, .ninf => .pinf
  | .pinf, .pinf => .nan
  | .ninf, .fin _ => .ninf
  | .ninf, .pinf => .ninf
  | .ninf, .ninf => .nan
  | .fin _, .pinf => .ninf
  | .fin _, .ninf => .pinf

/-- numpy multiplication on float64 values. -/
def pmul : PFloat → PFloat → PFloat
  | .nan, _ => .nan
  | _, .nan => .nan
  | .fin a, .fin b => .fin (a * b)
  | .pinf, .fin b => if 0 < b then .pinf else if b < 0 then .ninf else .nan
  | .ninf, .fin b => if 0 < b then .ninf else if b < 0 then .pinf else .nan
  | .fin a, .pinf => if 0 < a then .pinf else if a < 0 then .ninf else .nan
  | .fin a, .ninf => if 0 < a then .ninf else if a < 0 then .pinf else .nan
  | .pinf, .pinf => .pinf
  | .pinf, .ninf => .ninf
  | .ninf, .pinf => .ninf
  | .ninf, .ninf => .pinf

/-- numpy true division on float64 values (`x / 0` gives a signed infinity
for `x ≠ 0` and `NaN` for `0 / 0`; it raises no exception -- the program
filters the RuntimeWarning). -/
def pdiv : PFloat → PFloat → PFloat
  | .nan, _ => .nan
  | _, .nan => .nan
  | .fin a, .fin b =>
      if b = 0 then (if 0 < a then .pinf else if a < 0 then .ninf else .nan)
      else .fin (a / b)
  | .fin _, .pinf => .fin 0
  | .fin _, .ninf => .fin 0
  | .pinf, .fin b => if 0 ≤ b then .pinf else .ninf
  | .ninf, .fin b => if 0 ≤ b then .ninf else .pinf
  | .pinf, .pinf => .nan
  | .pinf, .ninf => .nan
  | .ninf, .pinf => .nan
  | .ninf, .ninf => .nan

/-!
`Series.pct_change()` (default periods=1) computes `s / s.shift(1) - 1`:
the first entry is `NaN` and entry `i` (i ≥ 1) is `v[i] / v[i-1] - 1`.
The data columns read from the CSVs contain no `NaN`, so the default
`fill_method` forward-fill is the identity on them and is not modelled.
-/

/-- `pct_change` of a value column, as used at
`chennai_electricity_analytics_main.py:98-99`. -/
def pctChange (xs : List PFloat) : List PFloat :=
  match xs with
  | [] => []
  | _ :: _ =>
      PFloat.nan ::
        List.zipWith (fun prev cur => psub (pdiv cur prev) (.fin 1)) xs xs.tail

/-- The growth column `df[col].pct_change() * 100`
(`chennai_electricity_analytics_main.py:98-99`). -/
def growthCol (xs : List PFloat) : List PFloat :=
  (pctChange xs).map (fun v => pmul v (.fin 100))

/-- Number of non-null entries of a column (pandas `count`). -/
def nonNullCount (xs : List PFloat) : ℕ :=
  (xs.filter (fun v => !v.isNull)).length

/-!
Group-by aggregation (`analyze_seasonal_patterns`,
`chennai_electricity_analytics_main.py:123-129`).  A table is a list of
(group key, value) rows.  `df.groupby(g)[v].mean()` averages the value
over each distinct group key; the key order of the pandas result (sorted)
does not affect any property below, so distinct keys are taken in order
of first appearance.
-/

/-- Mean of a list of rationals (pandas `Series.mean` = sum / count). -/
def qmean (l : List ℚ) : ℚ :=
  l.sum / (l.length : ℚ)

/-- The distinct group keys of a keyed table. -/
def groupKeys (t : List (String × ℚ)) : List String :=
  (t.map Prod.fst).dedup

/-- The values of one group. -/
def groupVals (t : List (String × ℚ)) (k : String) : List ℚ :=
  (t.filter (fun r => r.1 == k)).map Prod.snd

/-- `df.groupby(group)[value].mean()`: the per-group averages, one per
distinct key. -/
def groupMeans (t : List (String × ℚ)) : List ℚ :=
  (groupKeys t).map (fun k => qmean (groupVals t k))

/-- `monthly_avg['Demand_MU'] / monthly_avg['Demand_MU'].mean()`
(`chennai_electricity_analytics_main.py:125`): each per-group average
divided by the overall mean of the per-group averages. -/
def seasonalIndex (t : List (String × ℚ)) : List ℚ :=
  (groupMeans t).map (fun a => a / qmean (groupMeans t))

/-!
Sector growth (`analyze_sector_wise_consumption`,
`chennai_electricity_analytics_main.py:161-167`).  The code divides two
series indexed by `Sector`:
`df_2030.set_index('Sector')['Demand_MU'] / df_2025.set_index('Sector')['Demand_MU'] - 1`
then multiplies by 100.  pandas aligns the two series on the *union* of
their indices; a key present in only one series gets value `NaN` (no key
is dropped and no warning is issued).  We model the result as an
association list over the union of the keys, `none` standing for the
`NaN` of an unaligned key.  The union order in pandas is sorted; every
property below is order-independent, so the union is taken as the keys of
the first table followed by the new keys of the second.
-/

/-- Union of the keys of two period tables, as aligned by pandas. -/
def unionKeys (ta tb : List (String × ℚ)) : List String :=
  ta.map Prod.fst ++
    (tb.map Prod.fst).filter (fun k => decide (k ∉ ta.map Prod.fst))

/-- The sector-growth series of
`chennai_electricity_analytics_main.py:161-163`: for keys in both periods
`(value_b / value_a - 1) * 100`, for keys in only one period the `NaN`
produced by index alignment (`none`). -/
def sectorGrowth (ta tb : List (String × ℚ)) : List (String × Option ℚ) :=
  (unionKeys ta tb).map (fun k =>
    (k, match List.lookup k ta, List.lookup k tb with
        | some va, some vb => some ((vb / va - 1) * 100)
        | _, _ => none))

/-!
Data loading and report control flow
(`load_all_data`, `generate_comprehensive_report`, `main`;
`chennai_electricity_analytics_main.py:36-66, 369-420`).

`load_all_data` iterates over a fixed file list; a `FileNotFoundError`
for one file prints a warning and continues, so a missing file leaves its
key out of the registry.  The trailing `return True` is reached whenever
no exception other than `FileNotFoundError` occurs -- in this model
`pd.read_csv` on an available file always succeeds, so the function
always returns `True`, even when zero datasets were loaded.

`generate_comprehensive_report` calls the analysis steps in sequence with
no try/except between them: an exception raised inside a step propagates
out of the report and is caught only by the handler in `main`, which
prints an error message; the steps after the failing one never run.  We
model a step as `Except String String` (error message or printed output)
and the report as the sequential run that stops at the first error.
-/

/-- The fixed dataset-key / file-name table of
`chennai_electricity_analytics_main.py:40-50`. -/
def dataFiles : List (String × String) :=
  [("historical", "chennai_electricity_historical_2020_2024.csv"),
   ("monthly_detailed", "chennai_electricity_monthly_detailed_2023_2025.csv"),
   ("projections", "chennai_electricity_projections_2025_2030.csv"),
   ("sector_wise", "chennai_electricity_sector_wise_2025_2030.csv"),
   ("daily_load", "chennai_electricity_daily_load_profile.csv"),
   ("infrastructure", "chennai_electricity_infrastructure_2025_2030.csv"),
   ("economic", "chennai_economic_demographic_factors_2020_2030.csv"),
   ("weather", "chennai_weather_data_2023_2025.csv"),
   ("tariff", "chennai_electricity_tariff_structure_2025_2030.csv")]

/-- Result of `load_all_data`: the registry `self.data` (key ↦ loaded
source file), the printed warnings, and the boolean return value. -/
structure LoadResult where
  registry : List (String × String)
  warnings : List String
  success : Bool
deriving DecidableEq

/-- Warning printed for a missing file
(`chennai_electricity_analytics_main.py:58`). -/
def missingWarning (filename : String) : String :=
  "Warning: " ++ filename ++ " not found, skipping..."

/-- `load_all_data` (`chennai_electricity_analytics_main.py:36-66`) as a
function of the set of files present on disk. -/
def loadAllData (avail : List String) : LoadResult :=
  { registry := dataFiles.filter (fun kf => avail.contains kf.2)
    warnings :=
      (dataFiles.filter (fun kf => !avail.contains kf.2)).map
        (fun kf => missingWarning kf.2)
    success := true }

/-- Whether a dataset key is in the registry (`'historical' in self.data`). -/
def hasKey (reg : List (String × String)) (k : String) : Bool :=
  (reg.map Prod.fst).contains k

/-- `analyze_historical_trends` availability gate
(`chennai_electricity_analytics_main.py:87-89`): with the key absent the
method prints unavailability and returns without computing. -/
def analyzeHistoricalTrendsStep (reg : List (String × String)) :
    Except String String :=
  .ok (if hasKey reg "historical" then "HISTORICAL TRENDS ANALYSIS (2020-2024)"
       else "Historical data not available")

/-- `analyze_seasonal_patterns` availability gate (lines 113-115). -/
def analyzeSeasonalPatternsStep (reg : List (String × String)) :
    Except String String :=
  .ok (if hasKey reg "monthly_detailed" then "SEASONAL PATTERNS ANALYSIS"
       else "Monthly detailed data not available")

/-- `analyze_sector_wise_consumption` availability gate (lines 141-143). -/
def analyzeSectorStep (reg : List (String × String)) :
    Except String String :=
  .ok (if hasKey reg "sector_wise" then "SECTOR-WISE CONSUMPTION ANALYSIS"
       else "Sector-wise data not available")

/-- `create_demand_projection_chart` availability gate (lines 173-175). -/
def demandChartStep (reg : List (String × String)) :
    Except String String :=
  .ok (if hasKey reg "projections" then "Demand Projection Chart"
       else "Projection data not available")

/-- `create_seasonal_heatmap` availability gate (lines 225-227). -/
def seasonalHeatmapStep (reg : List (String × String)) :
    Except String String :=
  .ok (if hasKey reg "monthly_detailed" then "Seasonal Heatmap"
       else "Monthly detailed data not available")

/-- `create_sector_pie_chart` availability gate (lines 254-256). -/
def sectorPieStep (reg : List (String × String)) :
    Except String String :=
  .ok (if hasKey reg "sector_wise" then "Sector Pie Chart"
       else "Sector-wise data not available")

/-- `create_daily_load_profile` availability gate (lines 286-288). -/
def dailyLoadStep (reg : List (String × String)) :
    Except String String :=
  .ok (if hasKey reg "daily_load" then "Daily Load Profile"
       else "Daily load data not available")

/-- `create_infrastructure_dashboard` availability gate (lines 327-329). -/
def infrastructureStep (reg : List (String × String)) :
    Except String String :=
  .ok (if hasKey reg "infrastructure" then "Infrastructure Dashboard"
       else "Infrastructure data not available")

/-- Sequential execution of report steps with Python exception
propagation: outputs of the steps that ran, and the first uncaught error
if any (the steps after it do not run). -/
def runReport : List (Except String String) → List String × Option String
  | [] => ([], none)
  | .ok out :: rest =>
      let r := runReport rest
      (out :: r.1, r.2)
  | .error e :: _ => ([], some e)

/-- The analysis and chart steps called by `generate_comprehensive_report`
(`chennai_electricity_analytics_main.py:369-407`), on the registry loaded
from the available files. -/
def reportSteps (avail : List String) : List (Except String String) :=
  [analyzeHistoricalTrendsStep (loadAllData avail).registry,
   analyzeSeasonalPatternsStep (loadAllData avail).registry,
   analyzeSectorStep (loadAllData avail).registry,
   demandChartStep (loadAllData avail).registry,
   seasonalHeatmapStep (loadAllData avail).registry,
   sectorPieStep (loadAllData avail).registry,
   dailyLoadStep (loadAllData avail).registry,
   infrastructureStep (loadAllData avail).registry]

/-- `generate_comprehensive_report` as a function of the available files. -/
def generateComprehensiveReport (avail : List String) :
    List String × Option String :=
  runReport (reportSteps avail)

/-- `main` (`chennai_electricity_analytics_main.py:409-420`): catches any
exception escaping the report and prints an error message; the process
itself completes either way. -/
def mainFromSteps (steps : List (Except String String)) :
    List String × List String :=
  match runReport steps with
  | (outs, none) => (outs, [])
  | (outs, some e) => (outs, ["Error in main execution: " ++ e])

/-!
Table mutation frame (`analyze_historical_trends`,
`chennai_electricity_analytics_main.py:91-99`).  A DataFrame is modelled
column-oriented: an ordered association list from column name to the list
of cell values (the list order is the row order).  `df[name] = col`
appends a new column at the end, or replaces the column in place when the
name already exists.
-/

/-- A DataFrame: ordered columns, each a name and its cell values. -/
def getCol (t : List (String × List PFloat)) (name : String) : List PFloat :=
  (List.lookup name t).getD []

/-- `df[name] = col`: replace the column if present, else append it. -/
def setCol (t : List (String × List PFloat)) (name : String)
    (col : List PFloat) : List (String × List PFloat) :=
  if (t.map Prod.fst).contains name then
    t.map (fun c => if c.1 == name then (name, col) else c)
  else t ++ [(name, col)]

/-- The table effect of `analyze_historical_trends`
(`chennai_electricity_analytics_main.py:98-99`): assign
`df['Demand_Growth_%'] = df['Demand_MU'].pct_change() * 100` and then
`df['Cost_Growth_%'] = df['Cost_Rs_per_unit'].pct_change() * 100` (the
second read is from the table already carrying the first new column). -/
def analyzeHistoricalTrendsTable (t : List (String × List PFloat)) :
    List (String × List PFloat) :=
  let t1 := setCol t "Demand_Growth_%" (growthCol (getCol t "Demand_MU"))
  setCol t1 "Cost_Growth_%" (growthCol (getCol t1 "Cost_Rs_per_unit"))

/-!
Daily load profiles (`create_daily_load_profile`,
`chennai_electricity_analytics_main.py:295-310`).  Rows carry a day name,
an hour and a demand value.  The code splits rows on
`df['Day'].isin(['Saturday', 'Sunday'])` and averages `Demand_MW` grouped
by `Hour` within each part.  Hour-bucket order (pandas sorts) does not
affect the properties below; distinct hours are taken in order of first
appearance.
-/

/-- The weekend-day set of the source (line 296/309). -/
def weekendDays : List String :=
  ["Saturday", "Sunday"]

/-- `df[~df['Day'].isin(['Saturday', 'Sunday'])]` (line 296). -/
def weekdayRows (t : List (String × ℕ × ℚ)) : List (String × ℕ × ℚ) :=
  t.filter (fun r => !weekendDays.contains r.1)

/-- `df[df['Day'].isin(['Saturday', 'Sunday'])]` (line 309). -/
def weekendRows (t : List (String × ℕ × ℚ)) : List (String × ℕ × ℚ) :=
  t.filter (fun r => weekendDays.contains r.1)

/-- `rows.groupby('Hour')['Demand_MW'].mean()`: one bucket per distinct
hour, holding the average demand of that hour's rows. -/
def hourProfile (rs : List (String × ℕ × ℚ)) : List (ℕ × ℚ) :=
  ((rs.map (fun r => r.2.1)).dedup).map
    (fun h => (h, qmean ((rs.filter (fun r => r.2.1 == h)).map (fun r => r.2.2))))

/-- The weekday load profile (lines 296-297). -/
def weekdayProfile (t : List (String × ℕ × ℚ)) : List (ℕ × ℚ) :=
  hourProfile (weekdayRows t)

/-- The weekend load profile (lines 309-310). -/
def weekendProfile (t : List (String × ℕ × ℚ)) : List (ℕ × ℚ) :=
  hourProfile (weekendRows t)

/-!
CAGR (`chennai_electricity_analytics_main.py:102-103`,
`chennai_electricity_standalone.py:266`).  The code inlines
`((last / first) ** (1 / num_periods) - 1) * 100` with `num_periods` = 4
(historical, 5 rows) resp. 5 (projections, 6 rows).  The real-valued
ideal computation, on which the spec value claim is checked, uses the
real power `rpow`.
-/

/-- `((last / first) ** (1 / num_periods) - 1) * 100`, the CAGR
computation inlined at `chennai_electricity_analytics_main.py:102-103`. -/
noncomputable def compoundAnnualGrowthRate
    (firstValue lastValue : ℝ) (numPeriods : ℕ) : ℝ :=
  ((lastValue / firstValue) ^ ((numPeriods : ℝ)⁻¹) - 1) * 100

/-- The demand CAGR of `analyze_historical_trends` (line 102):
first/last element of the `Demand_MU` column with the hard-coded
exponent 1/4. -/
noncomputable def demandCAGR (demand : List ℝ) : ℝ :=
  compoundAnnualGrowthRate (demand.headD 0) (demand.getLastD 0) 4

/-!
numpy semantics of the CAGR computation on degenerate inputs
(claim about `first_value == 0` / `num_periods == 0`).  The cells are
numpy float64: division by zero emits a RuntimeWarning (filtered by the
program) and produces an infinity or `NaN`; it raises nothing.  Only the
plain-Python integer division `1 / num_periods` with `num_periods == 0`
would raise a `ZeroDivisionError`, and nothing between the analysis
methods and `main` catches it.  `NpVal` mirrors `PFloat` over ℝ so that
the real power on finite values is exact.
-/

/-- A numpy float64 value over exact reals. -/
inductive NpVal where
  | fin (x : ℝ)
  | pinf
  | ninf
  | nan

/-- numpy division over `NpVal` (raises nothing; `x / 0` is a signed
infinity for `x ≠ 0`, `0 / 0` is `NaN`). -/
noncomputable def npDiv : NpVal → NpVal → NpVal
  | .nan, _ => .nan
  | _, .nan => .nan
  | .fin a, .fin b =>
      if b = 0 then (if 0 < a then .pinf else if a < 0 then .ninf else .nan)
      else .fin (a / b)
  | .fin _, .pinf => .fin 0
  | .fin _, .ninf => .fin 0
  | .pinf, .fin b => if 0 ≤ b then .pinf else .ninf
  | .ninf, .fin b => if 0 ≤ b then .ninf else .pinf
  | .pinf, .pinf => .nan
  | .pinf, .ninf => .nan
  | .ninf, .pinf => .nan
  | .ninf, .ninf => .nan

/-- numpy `x ** e` for the fractional exponents `0 < e ≤ 1` used by the
CAGR computation: a negative finite base gives `NaN`, `+inf` stays
`+inf`, `-inf` gives `NaN`. -/
noncomputable def npPow (v : NpVal) (e : ℝ) : NpVal :=
  match v with
  | .nan => .nan
  | .pinf => .pinf
  | .ninf => .nan
  | .fin x => if x < 0 then .nan else .fin (x ^ e)

/-- numpy subtraction over `NpVal`. -/
noncomputable def npSub : NpVal → NpVal → NpVal
  | .nan, _ => .nan
  | _, .nan => .nan
  | .fin a, .fin b => .fin (a - b)
  | .pinf, .fin _ => .pinf
  | .pinf, .ninf => .pinf
  | .pinf, .pinf => .nan
  | .ninf, .fin _ => .ninf
  | .ninf, .pinf => .ninf
  | .ninf, .ninf => .nan
  | .fin _, .pinf => .ninf
  | .fin _, .ninf => .pinf

/-- numpy multiplication over `NpVal`. -/
noncomputable def npMul : NpVal → NpVal → NpVal
  | .nan, _ => .nan
  | _, .nan => .nan
  | .fin a, .fin b => .fin (a * b)
  | .pinf, .fin b => if 0 < b then .pinf else if b < 0 then .ninf else .nan
  | .ninf, .fin b => if 0 < b then .ninf else if b < 0 then .pinf else .nan
  | .fin a, .pinf => if 0 < a then .pinf else if a < 0 then .ninf else .nan
  | .fin a, .ninf => if 0 < a then .ninf else if a < 0 then .pinf else .nan
  | .pinf, .pinf => .pinf
  | .pinf, .ninf => .ninf
  | .ninf, .pinf => .ninf
  | .ninf, .ninf => .pinf

/-- The CAGR computation with runtime semantics: the exponent
`1 / num_periods` is plain-Python integer division and raises
`ZeroDivisionError` when `num_periods == 0`; everything else is numpy
float64 arithmetic and raises nothing. -/
noncomputable def cagrNp (firstValue lastValue : ℝ) (numPeriods : ℕ) :
    Except String NpVal :=
  if numPeriods = 0 then Except.error "ZeroDivisionError"
  else
    Except.ok
      (npMul
        (npSub
          (npPow (npDiv (NpVal.fin lastValue) (NpVal.fin firstValue))
            ((numPeriods : ℝ)⁻¹))
          (NpVal.fin 1))
        (NpVal.fin 100))

/-!
Helper lemmas.
-/

/-- On consecutive pairs of finite nonzero values, `pct_change * 100`
agrees with the textbook formula `(cur - prev) / prev * 100`. -/
theorem growthZip_eq (l l' : List ℚ) (h : ∀ x ∈ l, x ≠ 0) :
    (List.zipWith (fun prev cur => psub (pdiv cur prev) (.fin 1))
        (l.map PFloat.fin) (l'.map PFloat.fin)).map
          (fun v => pmul v (.fin 100))
      = List.zipWith (fun a b => PFloat.fin ((b - a) / a * 100)) l l' := by
  induction l generalizing l' with
  | nil => simp
  | cons a l ih =>
    cases l' with
    | nil => simp
    | cons b l' =>
      have ha : a ≠ 0 := h a (List.mem_cons_self a l)
      have hh : pmul (psub (pdiv (PFloat.fin b) (PFloat.fin a)) (.fin 1))
          (.fin 100) = PFloat.fin ((b - a) / a * 100) := by
        simp only [pdiv, psub, pmul, if_neg ha, PFloat.fin.injEq]
        field_simp
      simp only [List.map_cons, List.zipWith_cons_cons, List.map_cons, hh]
      exact congrArg _ (ih l' (fun x hx => h x (List.mem_cons_of_mem _ hx)))

/-- Shape of the growth column on a nonempty finite, nonzero value
column. -/
theorem growthCol_map_fin (xs : List ℚ) (hne : xs ≠ [])
    (h : ∀ x ∈ xs, x ≠ 0) :
    growthCol (xs.map PFloat.fin)
      = PFloat.nan ::
          List.zipWith (fun a b => PFloat.fin ((b - a) / a * 100)) xs xs.tail := by
  cases xs with
  | nil => exact absurd rfl hne
  | cons a rest =>
    have := growthZip_eq (a :: rest) rest h
    simp only [growthCol, pctChange, List.map_cons, List.tail_cons,
      List.map_cons, pmul] at *
    exact congrArg (PFloat.nan :: ·) this

/-- A zipWith producing only finite values has no null entry. -/
theorem filter_nonNull_zipWith_fin (f : ℚ → ℚ → ℚ) :
    ∀ (l l' : List ℚ),
      (List.zipWith (fun a b => PFloat.fin (f a b)) l l').filter
          (fun v => !v.isNull)
        = List.zipWith (fun a b => PFloat.fin (f a b)) l l'
  | [], _ => by simp
  | _ :: _, [] => by simp
  | a :: l, b :: l' => by
    simp only [List.zipWith_cons_cons, List.filter_cons, PFloat.isNull,
      Bool.not_false, if_pos]
    exact congrArg _ (filter_nonNull_zipWith_fin f l l')

/-- C1 (amended): for a table of N ≥ 2 chronologically ordered rows whose
value column holds finite nonzero values, the growth column
(`pct_change` times 100, `chennai_electricity_analytics_main.py:97-99`)
has the first entry null and entry i (for 1 ≤ i ≤ N-1) equal to
`(value[i] - value[i-1]) / value[i-1] * 100`, hence exactly N-1 non-null
entries.  (The nonzero restriction is forced: with consecutive zero
values the corresponding entry is `NaN`, i.e. null.) -/
theorem c1_period_over_period_growth (xs : List ℚ) (h2 : 2 ≤ xs.length)
    (hnz : ∀ x ∈ xs, x ≠ 0) :
    growthCol (xs.map PFloat.fin)
        = PFloat.nan ::
            List.zipWith (fun a b => PFloat.fin ((b - a) / a * 100)) xs xs.tail
      ∧ nonNullCount (growthCol (xs.map PFloat.fin)) = xs.length - 1
      ∧ (growthCol (xs.map PFloat.fin)).length = xs.length := by
  have hne : xs ≠ [] := by
    intro h
    rw [h] at h2
    exact absurd h2 (by decide)
  have hshape := growthCol_map_fin xs hne hnz
  refine ⟨hshape, ?_, ?_⟩
  · rw [hshape]
    have hdrop : nonNullCount
        (PFloat.nan ::
          List.zipWith (fun a b => PFloat.fin ((b - a) / a * 100)) xs xs.tail)
        = nonNullCount
            (List.zipWith (fun a b => PFloat.fin ((b - a) / a * 100)) xs
              xs.tail) := by
      simp [nonNullCount, List.filter_cons, PFloat.isNull]
    rw [hdrop]
    unfold nonNullCount
    rw [filter_nonNull_zipWith_fin (fun a b => (b - a) / a * 100) xs xs.tail]
    rw [List.length_zipWith, List.length_tail]
    omega
  · rw [hshape, List.length_cons, List.length_zipWith, List.length_tail]
    omega

/-- C1 counterexample: the two-row table with values [0, 0] has a null
(NaN) second growth entry, so it produces 0 non-null values, not
N - 1 = 1: the claim as stated fails without a nonzero-value
restriction. -/
theorem c1_counterexample :
    growthCol [PFloat.fin 0, PFloat.fin 0] = [PFloat.nan, PFloat.nan]
      ∧ nonNullCount (growthCol [PFloat.fin 0, PFloat.fin 0]) ≠ 2 - 1 := by
  decide

/-- C1 witness: the amended theorem applied to the concrete column
[100, 110, 121]. -/
theorem c1_witness :
    (2 ≤ ([100, 110, 121] : List ℚ).length)
      ∧ (∀ x ∈ ([100, 110, 121] : List ℚ), x ≠ 0)
      ∧ nonNullCount (growthCol (([100, 110, 121] : List ℚ).map PFloat.fin))
          = ([100, 110, 121] : List ℚ).length - 1 :=
  ⟨by decide, by decide,
    (c1_period_over_period_growth [100, 110, 121] (by decide) (by decide)).2.1⟩

/-- Dividing every list element by a constant divides the sum. -/
theorem sum_map_div (l : List ℚ) (m : ℚ) :
    (l.map (fun a => a / m)).sum = l.sum / m := by
  induction l with
  | nil => simp
  | cons a l ih => simp [ih, add_div]

/-- C4 (confirmed): for a non-empty grouped table whose overall mean of
per-group averages is positive, the seasonal-index values
(`chennai_electricity_analytics_main.py:123-125`) have arithmetic mean
exactly 1. -/
theorem c4_seasonal_index_mean (t : List (String × ℚ)) (hne : t ≠ [])
    (hpos : 0 < qmean (groupMeans t)) :
    qmean (seasonalIndex t) = 1 := by
  have hm : qmean (groupMeans t) ≠ 0 := ne_of_gt hpos
  have hgs : groupMeans t ≠ [] := by
    intro h
    apply hne
    have : groupKeys t = [] := by
      simpa [groupMeans] using h
    have : t.map Prod.fst = [] := by
      simpa [groupKeys, List.dedup_eq_nil] using this
    simpa using this
  have hlq : ((groupMeans t).length : ℚ) ≠ 0 := by
    have : (groupMeans t).length ≠ 0 := by
      simpa [List.length_eq_zero] using hgs
    exact_mod_cast this
  have hsum : (groupMeans t).sum ≠ 0 := by
    intro h0
    apply hm
    simp [qmean, h0]
  unfold seasonalIndex
  rw [show qmean ((groupMeans t).map (fun a => a / qmean (groupMeans t)))
      = ((groupMeans t).sum / qmean (groupMeans t))
          / ((groupMeans t).length : ℚ) from by
    simp [qmean, sum_map_div]]
  rw [show qmean (groupMeans t) = (groupMeans t).sum / ((groupMeans t).length : ℚ)
      from rfl]
  field_simp

/-- C4 witness: the theorem applied to a concrete two-group table. -/
theorem c4_witness :
    ([("Jan", (2 : ℚ)), ("Feb", 4)] ≠ [])
      ∧ 0 < qmean (groupMeans [("Jan", (2 : ℚ)), ("Feb", 4)])
      ∧ qmean (seasonalIndex [("Jan", (2 : ℚ)), ("Feb", 4)]) = 1 := by
  have hd : ([("Jan", (2 : ℚ)), ("Feb", 4)].map Prod.fst).dedup
      = ["Jan", "Feb"] := by decide
  have hgm : groupMeans [("Jan", (2 : ℚ)), ("Feb", 4)] = [2, 4] := by
    simp [groupMeans, groupKeys, hd, groupVals, qmean]
  have hpos : 0 < qmean (groupMeans [("Jan", (2 : ℚ)), ("Feb", 4)]) := by
    rw [hgm]
    norm_num [qmean]
  exact ⟨by decide, hpos,
    c4_seasonal_index_mean [("Jan", 2), ("Feb", 4)] (by decide) hpos⟩

/-- A successful association-list lookup means the key is present. -/
theorem mem_keys_of_lookup {t : List (String × ℚ)} {k : String} {v : ℚ}
    (h : List.lookup k t = some v) : k ∈ t.map Prod.fst := by
  induction t with
  | nil => simp [List.lookup] at h
  | cons p t ih =>
    obtain ⟨a, b⟩ := p
    simp only [List.lookup] at h
    by_cases hk : k = a
    · simp [hk]
    · rw [show (k == a) = false from beq_eq_false_iff_ne.mpr hk] at h
      simpa using Or.inr (ih h)

/-- Lookup of an absent key fails. -/
theorem lookup_eq_none_of_not_mem {t : List (String × ℚ)} {k : String}
    (h : k ∉ t.map Prod.fst) : List.lookup k t = none := by
  induction t with
  | nil => rfl
  | cons p t ih =>
    obtain ⟨a, b⟩ := p
    simp only [List.map_cons, List.mem_cons, not_or] at h
    simp only [List.lookup]
    rw [show (k == a) = false from beq_eq_false_iff_ne.mpr h.1]
    exact ih h.2

/-- Lookup of a present key succeeds. -/
theorem lookup_of_mem_keys {t : List (String × ℚ)} {k : String}
    (h : k ∈ t.map Prod.fst) : ∃ v, List.lookup k t = some v := by
  induction t with
  | nil => simp at h
  | cons p t ih =>
    obtain ⟨a, b⟩ := p
    by_cases hk : k = a
    · exact ⟨b, by simp [List.lookup, hk]⟩
    · simp only [List.map_cons, List.mem_cons] at h
      obtain ⟨v, hv⟩ := ih (h.resolve_left hk)
      refine ⟨v, ?_⟩
      simp only [List.lookup]
      rw [show (k == a) = false from beq_eq_false_iff_ne.mpr hk]
      exact hv

/-- C5 (amended): for period tables with unique keys (and nonzero
first-period values, as in the data), the sector-growth series of
`chennai_electricity_analytics_main.py:161-163` has exactly one entry per
key of the *union* of the two key sets: every shared key appears exactly
once with value `(value_b / value_a - 1) * 100`, and a key present in
only one period also appears, with the null (NaN) value produced by
pandas index alignment -- it is not excluded, and no warning is
reported. -/
theorem c5_sector_growth (ta tb : List (String × ℚ))
    (ha : (ta.map Prod.fst).Nodup) (hb : (tb.map Prod.fst).Nodup)
    (hvza : ∀ p ∈ ta, p.2 ≠ 0) :
    ((sectorGrowth ta tb).map Prod.fst = unionKeys ta tb)
      ∧ (unionKeys ta tb).Nodup
      ∧ (∀ k, k ∈ unionKeys ta tb ↔ k ∈ ta.map Prod.fst ∨ k ∈ tb.map Prod.fst)
      ∧ (∀ k va vb, List.lookup k ta = some va → List.lookup k tb = some vb →
          (k, some ((vb / va - 1) * 100)) ∈ sectorGrowth ta tb)
      ∧ (∀ k, k ∈ ta.map Prod.fst → k ∉ tb.map Prod.fst →
          (k, (none : Option ℚ)) ∈ sectorGrowth ta tb)
      ∧ (∀ k, k ∉ ta.map Prod.fst → k ∈ tb.map Prod.fst →
          (k, (none : Option ℚ)) ∈ sectorGrowth ta tb) := by
  refine ⟨?_, ?_, ?_, ?_, ?_, ?_⟩
  · unfold sectorGrowth
    rw [List.map_map]
    have hcomp : (Prod.fst ∘ fun k =>
        (k, match List.lookup k ta, List.lookup k tb with
            | some va, some vb => some ((vb / va - 1) * 100)
            | _, _ => none)) = id := by
      funext k
      rfl
    rw [hcomp, List.map_id]
  · refine ha.append (hb.filter _) ?_
    intro k hk hk2
    rw [List.mem_filter] at hk2
    have h2 := hk2.2
    simp only [decide_eq_true_eq] at h2
    exact h2 hk
  · intro k
    simp only [unionKeys, List.mem_append, List.mem_filter, decide_eq_true_eq]
    tauto
  · intro k va vb hva hvb
    have hk : k ∈ unionKeys ta tb :=
      List.mem_append.mpr (Or.inl (mem_keys_of_lookup hva))
    refine List.mem_map.mpr ⟨k, hk, ?_⟩
    rw [hva, hvb]
  · intro k hka hkb
    have hk : k ∈ unionKeys ta tb := List.mem_append.mpr (Or.inl hka)
    refine List.mem_map.mpr ⟨k, hk, ?_⟩
    obtain ⟨v, hv⟩ := lookup_of_mem_keys hka
    rw [hv, lookup_eq_none_of_not_mem hkb]
  · intro k hka hkb
    have hk : k ∈ unionKeys ta tb :=
      List.mem_append.mpr
        (Or.inr (List.mem_filter.mpr ⟨hkb, by simpa using hka⟩))
    refine List.mem_map.mpr ⟨k, hk, ?_⟩
    obtain ⟨v, hv⟩ := lookup_of_mem_keys hkb
    rw [hv, lookup_eq_none_of_not_mem hka]

/-- C5 counterexample: with period A holding only key "X" and period B
holding only key "Y", the computed series contains entries for both
one-period keys (with NaN values) instead of excluding them: the claim
that keys present in only one period are excluded is false. -/
theorem c5_counterexample :
    sectorGrowth [("X", (1 : ℚ))] [("Y", (2 : ℚ))]
        = [("X", none), ("Y", none)]
      ∧ ("X", (none : Option ℚ)) ∈ sectorGrowth [("X", (1 : ℚ))] [("Y", (2 : ℚ))]
      ∧ "X" ∉ ([("Y", (2 : ℚ))].map Prod.fst) := by
  decide

/-- C5 witness: the amended theorem applied to concrete one-sector
tables sharing the key "Domestic". -/
theorem c5_witness :
    (([("Domestic", (100 : ℚ))].map Prod.fst).Nodup)
      ∧ (∀ p ∈ [("Domestic", (100 : ℚ))], p.2 ≠ 0)
      ∧ ("Domestic", some ((((121 : ℚ)) / 100 - 1) * 100))
          ∈ sectorGrowth [("Domestic", (100 : ℚ))] [("Domestic", (121 : ℚ))] := by
  refine ⟨by decide, by decide, ?_⟩
  exact (c5_sector_growth [("Domestic", 100)] [("Domestic", 121)]
    (by decide) (by decide) (by decide)).2.2.2.1 "Domestic" 100 121
    (by decide) (by decide)

/-- In a list whose first components are distinct, two members with the
same first component are equal. -/
theorem eq_of_mem_of_fst_nodup {l : List (String × String)}
    (h : (l.map Prod.fst).Nodup) {p q : String × String}
    (hp : p ∈ l) (hq : q ∈ l) (hfst : p.1 = q.1) : p = q := by
  induction l with
  | nil => cases hp
  | cons a l ih =>
    rw [List.map_cons, List.nodup_cons] at h
    rcases List.mem_cons.mp hp with hp1 | hp2 <;>
      rcases List.mem_cons.mp hq with hq1 | hq2
    · rw [hp1, hq1]
    · exfalso
      apply h.1
      have hm : q.1 ∈ l.map Prod.fst := List.mem_map_of_mem Prod.fst hq2
      rw [← hfst, hp1] at hm
      exact hm
    · exfalso
      apply h.1
      have hm : p.1 ∈ l.map Prod.fst := List.mem_map_of_mem Prod.fst hp2
      rw [hfst, hq1] at hm
      exact hm
    · exact ih h.2 hp2 hq2

/-- The dataset keys of the file table are distinct. -/
theorem dataFiles_keys_nodup : (dataFiles.map Prod.fst).Nodup := by
  decide

/-- C6 (confirmed): for every configuration of available files, a
missing input file leaves its dataset key out of the registry and puts
the corresponding warning in the output
(`chennai_electricity_analytics_main.py:52-62`); an analysis whose key is
absent reports unavailability and returns without computing (lines
87-89); and the whole report run completes without an uncaught error. -/
theorem c6_missing_file_nonfatal (avail : List String) :
    (∀ kf ∈ dataFiles, kf.2 ∉ avail →
        hasKey (loadAllData avail).registry kf.1 = false
          ∧ missingWarning kf.2 ∈ (loadAllData avail).warnings)
      ∧ (∀ reg : List (String × String), hasKey reg "historical" = false →
          analyzeHistoricalTrendsStep reg
            = .ok "Historical data not available")
      ∧ (∀ reg : List (String × String), hasKey reg "monthly_detailed" = false →
          analyzeSeasonalPatternsStep reg
            = .ok "Monthly detailed data not available")
      ∧ (∀ reg : List (String × String), hasKey reg "sector_wise" = false →
          analyzeSectorStep reg = .ok "Sector-wise data not available")
      ∧ (∀ reg : List (String × String), hasKey reg "projections" = false →
          demandChartStep reg = .ok "Projection data not available")
      ∧ (∀ reg : List (String × String), hasKey reg "monthly_detailed" = false →
          seasonalHeatmapStep reg
            = .ok "Monthly detailed data not available")
      ∧ (∀ reg : List (String × String), hasKey reg "sector_wise" = false →
          sectorPieStep reg = .ok "Sector-wise data not available")
      ∧ (∀ reg : List (String × String), hasKey reg "daily_load" = false →
          dailyLoadStep reg = .ok "Daily load data not available")
      ∧ (∀ reg : List (String × String), hasKey reg "infrastructure" = false →
          infrastructureStep reg = .ok "Infrastructure data not available")
      ∧ (generateComprehensiveReport avail).2 = none := by
  refine ⟨?_, ?_, ?_, ?_, ?_, ?_, ?_, ?_, ?_, ?_⟩
  · intro kf hkf hmiss
    constructor
    · by_contra hcon
      rw [Bool.not_eq_false] at hcon
      unfold hasKey at hcon
      rw [List.elem_iff] at hcon
      obtain ⟨kf2, hkf2, hfst⟩ := List.mem_map.mp hcon
      have hkf2mem := (List.mem_filter.mp hkf2).1
      have havail := (List.mem_filter.mp hkf2).2
      have heq : kf2 = kf := eq_of_mem_of_fst_nodup dataFiles_keys_nodup
        hkf2mem hkf hfst
      rw [heq] at havail
      rw [List.elem_iff] at havail
      exact hmiss havail
    · refine List.mem_map.mpr ⟨kf, ?_, rfl⟩
      refine List.mem_filter.mpr ⟨hkf, ?_⟩
      simp only [Bool.not_eq_eq_eq_not, Bool.not_true]
      rw [← Bool.not_eq_true, List.elem_iff]
      exact hmiss
  · intro reg hreg
    unfold analyzeHistoricalTrendsStep
    rw [hreg]
    rfl
  · intro reg hreg
    unfold analyzeSeasonalPatternsStep
    rw [hreg]
    rfl
  · intro reg hreg
    unfold analyzeSectorStep
    rw [hreg]
    rfl
  · intro reg hreg
    unfold demandChartStep
    rw [hreg]
    rfl
  · intro reg hreg
    unfold seasonalHeatmapStep
    rw [hreg]
    rfl
  · intro reg hreg
    unfold sectorPieStep
    rw [hreg]
    rfl
  · intro reg hreg
    unfold dailyLoadStep
    rw [hreg]
    rfl
  · intro reg hreg
    unfold infrastructureStep
    rw [hreg]
    rfl
  · rfl

/-- C6 witness: the theorem applied to an empty disk (every file
missing): the historical key is absent, the warning is present, and the
report still completes. -/
theorem c6_witness :
    (("historical", "chennai_electricity_historical_2020_2024.csv")
        ∈ dataFiles)
      ∧ hasKey (loadAllData []).registry "historical" = false
      ∧ missingWarning "chennai_electricity_historical_2020_2024.csv"
          ∈ (loadAllData []).warnings
      ∧ (generateComprehensiveReport []).2 = none := by
  have h := c6_missing_file_nonfatal []
  have hk := h.1 ("historical", "chennai_electricity_historical_2020_2024.csv")
    (by decide) (by simp)
  exact ⟨by decide, hk.1, hk.2, h.2.2.2.2.2.2.2.2.2⟩

/-- C7 counterexample: with the first analysis step raising an exception
(here a "ValueError") and the remaining steps healthy on a fully loaded
registry, the report produces no further step output: the run does not
continue to the next independent analysis step, and the error is caught
only by `main`, which abandons the rest of the report. -/
theorem c7_counterexample :
    runReport
        [Except.error "ValueError",
         analyzeSeasonalPatternsStep dataFiles,
         analyzeSectorStep dataFiles]
        = ([], some "ValueError")
      ∧ "SEASONAL PATTERNS ANALYSIS"
          ∉ (runReport
              [Except.error "ValueError",
               analyzeSeasonalPatternsStep dataFiles,
               analyzeSectorStep dataFiles]).1
      ∧ mainFromSteps
          [Except.error "ValueError",
           analyzeSeasonalPatternsStep dataFiles,
           analyzeSectorStep dataFiles]
          = ([], ["Error in main execution: ValueError"]) := by
  refine ⟨rfl, ?_, rfl⟩
  rw [show (runReport
      [Except.error "ValueError",
       analyzeSeasonalPatternsStep dataFiles,
       analyzeSectorStep dataFiles]).1 = [] from rfl]
  exact List.not_mem_nil _

/-- C7 (amended): `generate_comprehensive_report` has no per-step
exception handling (`chennai_electricity_analytics_main.py:369-407`): a
failure raised inside one analysis step aborts all remaining steps of the
report; the exception is caught only by `main`
(lines 409-420), which logs it, so the process ends without a crash but
with the rest of the report unproduced. -/
theorem c7_failure_aborts_report (outs : List String) (e : String)
    (post : List (Except String String)) :
    runReport (outs.map Except.ok ++ Except.error e :: post) = (outs, some e)
      ∧ mainFromSteps (outs.map Except.ok ++ Except.error e :: post)
          = (outs, ["Error in main execution: " ++ e]) := by
  have h1 : runReport (outs.map Except.ok ++ Except.error e :: post)
      = (outs, some e) := by
    induction outs with
    | nil => rfl
    | cons o outs ih =>
        show (o :: (runReport (outs.map Except.ok
            ++ Except.error e :: post)).1,
          (runReport (outs.map Except.ok ++ Except.error e :: post)).2)
          = (o :: outs, some e)
        rw [ih]
  refine ⟨h1, ?_⟩
  unfold mainFromSteps
  rw [h1]

/-- C3 counterexample: with `first_value = 0` (and positive last value),
the CAGR computation does not fail with a division error: numpy division
by zero yields `+inf` (with a filtered warning) and the computation
returns `+inf` as its numeric result, so on this input the claimed
DivisionError failure, metric omission and continued report cannot all
hold. -/
theorem c3_counterexample :
    cagrNp 0 121 4 = Except.ok NpVal.pinf
      ∧ ¬ ∃ msg, cagrNp 0 121 4 = Except.error msg := by
  have h : cagrNp 0 121 4 = Except.ok NpVal.pinf := by
    unfold cagrNp
    rw [if_neg (by norm_num)]
    have hdiv : npDiv (NpVal.fin 121) (NpVal.fin 0) = NpVal.pinf := by
      simp only [npDiv]
      norm_num
    rw [hdiv]
    have hpow : npPow NpVal.pinf (((4 : ℕ) : ℝ))⁻¹ = NpVal.pinf := rfl
    rw [hpow]
    have hsub : npSub NpVal.pinf (NpVal.fin 1) = NpVal.pinf := rfl
    rw [hsub]
    have hmul : npMul NpVal.pinf (NpVal.fin 100) = NpVal.pinf := by
      simp only [npMul]
      norm_num
    rw [hmul]
  refine ⟨h, ?_⟩
  rintro ⟨msg, hmsg⟩
  rw [h] at hmsg
  cases hmsg

/-- C3 (amended): only `num_periods == 0` makes the CAGR computation
raise (a `ZeroDivisionError` from the plain-Python `1 / num_periods`);
`first_value == 0` raises nothing -- numpy division returns `+inf` and
the metric is reported as infinity rather than omitted.  When an
exception is raised, nothing inside the report catches it: the remaining
steps are skipped and the error is logged only in `main`, so no
metric-level omission with a continued report occurs. -/
theorem c3_division_behaviour :
    (∀ f l : ℝ, cagrNp f l 0 = Except.error "ZeroDivisionError")
      ∧ cagrNp 0 121 4 = Except.ok NpVal.pinf
      ∧ (∀ (e : String) (rest : List (Except String String)),
          runReport (Except.error e :: rest) = ([], some e)) := by
  refine ⟨fun f l => rfl, ?_, fun e rest => rfl⟩
  unfold cagrNp
  rw [if_neg (by norm_num)]
  have hdiv : npDiv (NpVal.fin 121) (NpVal.fin 0) = NpVal.pinf := by
    simp only [npDiv]
    norm_num
  rw [hdiv]
  have hmul : npMul NpVal.pinf (NpVal.fin 100) = NpVal.pinf := by
    simp only [npMul]
    norm_num
  exact congrArg Except.ok hmul

/-- C2 (confirmed): the CAGR computation is exactly
`((last / first) ** (1 / num_periods) - 1) * 100`
(`chennai_electricity_analytics_main.py:102-103`,
`chennai_electricity_standalone.py:266`); at
`(first, last, periods) = (100, 121, 2)` it equals exactly 10; and the
inlined historical variant is this computation applied to the first and
last elements of the 5-row demand column with `num_periods = 4`. -/
theorem c2_cagr_formula :
    (∀ (f l : ℝ) (n : ℕ), compoundAnnualGrowthRate f l n
        = ((l / f) ^ (((n : ℕ) : ℝ))⁻¹ - 1) * 100)
      ∧ compoundAnnualGrowthRate 100 121 2 = 10
      ∧ (∀ a b c d e : ℝ, demandCAGR [a, b, c, d, e]
          = compoundAnnualGrowthRate a e 4) := by
  refine ⟨fun f l n => rfl, ?_, fun a b c d e => rfl⟩
  unfold compoundAnnualGrowthRate
  have h1 : ((121 : ℝ) / 100) = (11 / 10 : ℝ) ^ (2 : ℕ) := by norm_num
  rw [h1, Real.pow_rpow_inv_natCast (by norm_num) (by norm_num)]
  norm_num

/-- Appending a single column keeps lookups of other names unchanged. -/
theorem lookup_append_single (t : List (String × List PFloat))
    (n m : String) (col : List PFloat) (h : n ≠ m) :
    List.lookup n (t ++ [(m, col)]) = List.lookup n t := by
  induction t with
  | nil =>
    simp only [List.nil_append, List.lookup]
    rw [show (n == m) = false from beq_eq_false_iff_ne.mpr h]
  | cons p t ih =>
    obtain ⟨a, b⟩ := p
    simp only [List.cons_append, List.lookup]
    cases hb : (n == a) with
    | true => rfl
    | false => exact ih

/-- Assigning an absent column name appends the column at the end. -/
theorem setCol_of_not_mem (t : List (String × List PFloat)) (name : String)
    (col : List PFloat) (h : name ∉ t.map Prod.fst) :
    setCol t name col = t ++ [(name, col)] := by
  unfold setCol
  rw [if_neg]
  intro hc
  rw [List.elem_iff] at hc
  exact h hc

/-- C8 (confirmed): on a table that does not already carry the two growth
column names, `analyze_historical_trends`
(`chennai_electricity_analytics_main.py:91-99`) appends exactly the two
computed growth columns at the end: every pre-existing column (name,
values, hence row order) is unchanged and in place, the column-name list
is extended by exactly the two new names, and the operation is a pure
function of the table (equal inputs give equal outputs). -/
theorem c8_frame_effect (t : List (String × List PFloat))
    (hd : "Demand_Growth_%" ∉ t.map Prod.fst)
    (hc : "Cost_Growth_%" ∉ t.map Prod.fst) :
    analyzeHistoricalTrendsTable t
        = t ++ [("Demand_Growth_%", growthCol (getCol t "Demand_MU")),
                ("Cost_Growth_%", growthCol (getCol t "Cost_Rs_per_unit"))]
      ∧ (∀ c ∈ t, c ∈ analyzeHistoricalTrendsTable t)
      ∧ (analyzeHistoricalTrendsTable t).map Prod.fst
          = t.map Prod.fst ++ ["Demand_Growth_%", "Cost_Growth_%"]
      ∧ (∀ t2 : List (String × List PFloat), t = t2 →
          analyzeHistoricalTrendsTable t = analyzeHistoricalTrendsTable t2) := by
  have hmain : analyzeHistoricalTrendsTable t
      = t ++ [("Demand_Growth_%", growthCol (getCol t "Demand_MU")),
              ("Cost_Growth_%", growthCol (getCol t "Cost_Rs_per_unit"))] := by
    unfold analyzeHistoricalTrendsTable
    rw [setCol_of_not_mem t _ _ hd]
    show setCol (t ++ [("Demand_Growth_%", growthCol (getCol t "Demand_MU"))])
        "Cost_Growth_%"
        (growthCol (getCol
          (t ++ [("Demand_Growth_%", growthCol (getCol t "Demand_MU"))])
          "Cost_Rs_per_unit"))
      = t ++ [("Demand_Growth_%", growthCol (getCol t "Demand_MU")),
              ("Cost_Growth_%", growthCol (getCol t "Cost_Rs_per_unit"))]
    have hget : getCol (t ++ [("Demand_Growth_%",
        growthCol (getCol t "Demand_MU"))]) "Cost_Rs_per_unit"
        = getCol t "Cost_Rs_per_unit" := by
      unfold getCol
      rw [lookup_append_single t _ _ _ (by decide)]
    rw [hget]
    have hnotmem : "Cost_Growth_%" ∉ (t ++ [("Demand_Growth_%",
        growthCol (getCol t "Demand_MU"))]).map Prod.fst := by
      rw [List.map_append]
      intro hmem
      rcases List.mem_append.mp hmem with h1 | h2
      · exact hc h1
      · simp only [List.map_cons, List.map_nil, List.mem_singleton] at h2
        exact absurd h2 (by decide)
    rw [setCol_of_not_mem _ _ _ hnotmem, List.append_assoc]
    rfl
  refine ⟨hmain, ?_, ?_, fun t2 ht => by rw [ht]⟩
  · intro c hcmem
    rw [hmain]
    exact List.mem_append.mpr (Or.inl hcmem)
  · rw [hmain, List.map_append]
    rfl

/-- C8 witness: the theorem applied to a concrete one-column table. -/
theorem c8_witness :
    ("Demand_Growth_%"
        ∉ [("Demand_MU", [PFloat.fin 100, PFloat.fin 110])].map Prod.fst)
      ∧ analyzeHistoricalTrendsTable
            [("Demand_MU", [PFloat.fin 100, PFloat.fin 110])]
          = [("Demand_MU", [PFloat.fin 100, PFloat.fin 110])]
              ++ [("Demand_Growth_%",
                    growthCol (getCol
                      [("Demand_MU", [PFloat.fin 100, PFloat.fin 110])]
                      "Demand_MU")),
                  ("Cost_Growth_%",
                    growthCol (getCol
                      [("Demand_MU", [PFloat.fin 100, PFloat.fin 110])]
                      "Cost_Rs_per_unit"))] :=
  ⟨by decide,
    (c8_frame_effect [("Demand_MU", [PFloat.fin 100, PFloat.fin 110])]
      (by decide) (by decide)).1⟩

/-- A list of naturals all below 24 has at most 24 distinct values. -/
theorem dedup_length_le_24 (l : List ℕ) (h : ∀ x ∈ l, x < 24) :
    l.dedup.length ≤ 24 := by
  rw [← List.card_toFinset]
  calc l.toFinset.card
      ≤ (Finset.range 24).card := by
        apply Finset.card_le_card
        intro x hx
        rw [List.mem_toFinset] at hx
        exact Finset.mem_range.mpr (h x hx)
    _ = 24 := Finset.card_range 24

/-- C9 (confirmed): with every hour value among the 24 hours of a day,
`create_daily_load_profile` (`chennai_electricity_analytics_main.py:
295-310`) partitions the rows on membership of the day in the weekend
set, averages the demand per hour within each part, and each of the two
profiles has at most 24 (distinct) hour buckets. -/
theorem c9_daily_load_profile (t : List (String × ℕ × ℚ))
    (h24 : ∀ r ∈ t, r.2.1 < 24) :
    (weekdayProfile t).length ≤ 24
      ∧ (weekendProfile t).length ≤ 24
      ∧ (∀ r, r ∈ weekdayRows t ↔ r ∈ t ∧ r.1 ∉ weekendDays)
      ∧ (∀ r, r ∈ weekendRows t ↔ r ∈ t ∧ r.1 ∈ weekendDays)
      ∧ ((weekdayProfile t).map Prod.fst).Nodup
      ∧ ((weekendProfile t).map Prod.fst).Nodup := by
  have hlen : ∀ rs : List (String × ℕ × ℚ), (∀ r ∈ rs, r.2.1 < 24) →
      (hourProfile rs).length ≤ 24 := by
    intro rs hrs
    unfold hourProfile
    rw [List.length_map]
    apply dedup_length_le_24
    intro x hx
    obtain ⟨r, hr, hrx⟩ := List.mem_map.mp hx
    exact hrx ▸ hrs r hr
  have hfst : ∀ rs : List (String × ℕ × ℚ),
      ((hourProfile rs).map Prod.fst).Nodup := by
    intro rs
    unfold hourProfile
    rw [List.map_map]
    have hcomp : (Prod.fst ∘ fun h => (h,
        qmean ((rs.filter (fun r => r.2.1 == h)).map (fun r => r.2.2))))
        = id := by
      funext h
      rfl
    rw [hcomp, List.map_id]
    exact List.nodup_dedup _
  refine ⟨?_, ?_, ?_, ?_, hfst _, hfst _⟩
  · exact hlen _ (fun r hr => h24 r (List.mem_of_mem_filter hr))
  · exact hlen _ (fun r hr => h24 r (List.mem_of_mem_filter hr))
  · intro r
    unfold weekdayRows
    rw [List.mem_filter]
    constructor
    · rintro ⟨hm, hp⟩
      refine ⟨hm, ?_⟩
      intro hw
      rw [Bool.not_eq_eq_eq_not, Bool.not_true, ← Bool.not_eq_true,
        List.elem_iff] at hp
      exact hp hw
    · rintro ⟨hm, hw⟩
      refine ⟨hm, ?_⟩
      rw [Bool.not_eq_eq_eq_not, Bool.not_true, ← Bool.not_eq_true,
        List.elem_iff]
      exact hw
  · intro r
    unfold weekendRows
    rw [List.mem_filter]
    constructor
    · rintro ⟨hm, hp⟩
      rw [List.elem_iff] at hp
      exact ⟨hm, hp⟩
    · rintro ⟨hm, hw⟩
      refine ⟨hm, ?_⟩
      rw [List.elem_iff]
      exact hw

/-- C9 witness: the theorem applied to a concrete two-row table. -/
theorem c9_witness :
    (∀ r ∈ [("Monday", (8 : ℕ), (100 : ℚ)), ("Saturday", 10, 80)],
        r.2.1 < 24)
      ∧ (weekdayProfile
          [("Monday", (8 : ℕ), (100 : ℚ)), ("Saturday", 10, 80)]).length
        ≤ 24 :=
  ⟨by decide,
    (c9_daily_load_profile [("Monday", 8, 100), ("Saturday", 10, 80)]
      (by decide)).1⟩

/-- C10 (confirmed): `load_all_data`
(`chennai_electricity_analytics_main.py:36-66`) returns `True` for every
configuration of available files -- the only exception handled inside the
loop is `FileNotFoundError`, which is swallowed with a warning -- so in
particular with every file missing it still returns `True` with an empty
registry: a `True` return does not imply any dataset is present. -/
theorem c10_load_all_data_returns_true :
    (∀ avail : List String, (loadAllData avail).success = true)
      ∧ (loadAllData []).registry = []
      ∧ (loadAllData []).success = true := by
  refine ⟨fun avail => rfl, ?_, rfl⟩
  decide
